import Mathlib

/-!
# Verification of the cmlkit caching subsystem

A shallow embedding of the caching core of the `cmlkit` repository:

* `cmlkit/engine/cache/disk.py` — `DiskCache` (check / store / retrieve / try_retrieve),
* `cmlkit/engine/cache/caches.py` — the `Caches` registry and its `register` policy,
* `cmlkit/engine/data/data.py` — the `Data` artifact class and the `.npz` artifact
  serialization (`write_data_npz`, `load_data`, `load_data_npz`),
* `mbtr/cached_mbtr.py` — the environment-driven cache configuration
  (`CML_CACHE_SIZE`, `CML_CACHE_LOC`).

The filesystem is modelled as a flat association list from path strings to file
contents; a file holds either a well-formed `.npz` archive or unreadable garbage.
Python exceptions are modelled by the explicit error type `PyErr`, and Python's
`pathlib.PurePath.suffix` rule is modelled on character lists (`pathExt`).
-/

/-- The Python exceptions that the caching code can surface.
`fileNotFound` models `FileNotFoundError`, which is a subclass of `OSError`
(relevant for the `except (EOFError, OSError, UnpicklingError)` clause in
`DiskCache.try_retrieve`). -/
inductive PyErr where
  | fileNotFound
  | eofError
  | unpicklingError
  | assertionError
  | valueError
  | notImplementedError (msg : String)
deriving DecidableEq, Repr

/-- The characters of a path after the last occurrence of `sep`
(the whole list when `sep` does not occur). -/
def afterLast (sep : Char) (l : List Char) : List Char :=
  (l.reverse.takeWhile (fun c => c != sep)).reverse

/-- `pathlib.PurePath.name` for the paths built by this code
(which never end in a path separator): the part after the last `/`. -/
def pathName (p : String) : String :=
  ⟨afterLast '/' p.data⟩

/-- `pathlib.PurePath.suffix`: the extension of the final path component.
CPython computes `i = name.rfind('.')` and returns `name[i:]` when
`0 < i < len(name) - 1`, else the empty string; equivalently, with `e` the
characters after the last dot, the suffix is `'.' :: e` when `e` is nonempty
and the dot is neither leading nor absent. -/
def pathExt (p : String) : String :=
  let n := (pathName p).data
  let e := afterLast '.' n
  if e ≠ [] ∧ e.length + 1 < n.length then ⟨'.' :: e⟩ else ""

/-- A `Data` artifact (`cmlkit/engine/data/data.py`): `data` is the mapping of
field names to arrays, `info` a metadata mapping, and `meta` holds the
`history` list (`meta = {"history": history}` in `Data.create`).
Arrays are modelled as integer lists, `info` as a finite mapping. -/
structure Data where
  kind : String
  data : List (String × List Int)
  info : List (String × Int)
  meta : List String
deriving DecidableEq, Repr

/-- The members of an `.npz` artifact archive as written by `write_data_npz`:
the `protocol` tag, the `kind`, `info` and `meta` members, and one member per
data field, stored under the namespaced name `data/{field_name}` (`entries`). -/
structure NpzArchive where
  protocol : Int
  kind : String
  info : List (String × Int)
  meta : List String
  entries : List (String × List Int)
deriving DecidableEq, Repr

/-- `write_data_npz(path, kind, data, info, meta)` (data.py lines 95-101):
builds the archive `{kind, info, meta, protocol: 1}` plus one member
`data/{name}` per data field. -/
def write_data_npz (kind : String) (data : List (String × List Int))
    (info : List (String × Int)) (meta : List String) : NpzArchive :=
  ⟨1, kind, info, meta, data.map (fun e => ("data/" ++ e.1, e.2))⟩

/-- Python `dict` assignment `d[k] = v` on an insertion-ordered association
list: update in place when the key exists, append otherwise. -/
def dictInsert : List (String × List Int) → String → List Int → List (String × List Int)
  | [], k, v => [(k, v)]
  | (k0, v0) :: t, k, v =>
    if k0 = k then (k0, v) :: t else (k0, v0) :: dictInsert t k v

/-- `name.split("/")[0]`: the characters before the first `/`. -/
def firstComp (l : List Char) : List Char :=
  l.takeWhile (fun c => c != '/')

/-- `name.split("/")[1]` when it exists: the characters between the first `/`
and the following `/` (or the end). -/
def secondComp (l : List Char) : Option (List Char) :=
  match l.dropWhile (fun c => c != '/') with
  | [] => none
  | _ :: rest => some (rest.takeWhile (fun c => c != '/'))

/-- The data-reassembly loop of `load_data_npz` (data.py lines 85-88):
`for name, array in file.items(): if name.split("/")[0] == "data":
data[name.split("/")[1]] = array`.  The `none` arm of `secondComp` is
unreachable for archives produced by `write_data_npz`, whose member names
always contain a `/`. -/
def parse_data_entries (entries : List (String × List Int)) : List (String × List Int) :=
  entries.foldl
    (fun acc e =>
      if firstComp e.1.data = "data".data then
        match secondComp e.1.data with
        | some m => dictInsert acc ⟨m⟩ e.2
        | none => acc
      else acc)
    []

/-- Modelled from the spec: `from_config` (`cmlkit.from_config`, not under
`src/`) looks up the deserialization handler for `kind` in an external
registry and reconstructs the artifact from the config
`{kind: {"info": info, "data": data, "meta": meta}}`; we model the generic
`Data` handler, which rebuilds the triple unchanged. -/
def from_config (kind : String) (data : List (String × List Int))
    (info : List (String × Int)) (meta : List String) : Data :=
  ⟨kind, data, info, meta⟩

/-- The contents of a file on disk: either a well-formed artifact archive, or
garbage bytes on which deserialization fails. -/
inductive FileContent where
  | npz (a : NpzArchive)
  | garbage
deriving DecidableEq, Repr

/-- The filesystem: a flat mapping from path strings to file contents. -/
abbrev FS := List (String × FileContent)

/-- Look up a path in the filesystem. -/
def fsFind : FS → String → Option FileContent
  | [], _ => none
  | (q, c) :: t, p => if q = p then some c else fsFind t p

/-- Write a file, silently overwriting an existing one (as `np.savez` does). -/
def fsSet (fs : FS) (p : String) (c : FileContent) : FS :=
  (p, c) :: fs.filter (fun e => e.1 != p)

/-- `pathlib.Path.unlink()`: remove the file, raising `FileNotFoundError`
when it does not exist. -/
def fsUnlink (fs : FS) (p : String) : Except PyErr FS :=
  match fsFind fs p with
  | some _ => .ok (fs.filter (fun e => e.1 != p))
  | none => .error .fileNotFound

/-- `load_data_npz(path)` (data.py lines 73-92): `np.load` raises
`FileNotFoundError` on a missing file and a deserialization error
(modelled as `UnpicklingError`) on garbage content; on a well-formed archive
the reader asserts `protocol == 1`, then rebuilds the artifact through
`from_config`, reassembling the data mapping from the `data/{name}` members. -/
def load_data_npz (fs : FS) (path : String) : Except PyErr Data :=
  match fsFind fs path with
  | none => .error .fileNotFound
  | some .garbage => .error .unpicklingError
  | some (.npz a) =>
    if a.protocol = 1 then
      .ok (from_config a.kind (parse_data_entries a.entries) a.info a.meta)
    else .error .assertionError

/-- `load_data(path)` (data.py lines 64-70): dispatch on the path suffix;
anything other than `".npz"` raises `ValueError` without touching the file. -/
def load_data (fs : FS) (path : String) : Except PyErr Data :=
  if pathExt path = ".npz" then load_data_npz fs path else .error .valueError

/-- Modelled from the spec: `normalize_extension` (`cmlkit.engine.inout`, not
under `src/`) makes sure the written artifact file carries the archive
extension; a path already carrying it is left unchanged. -/
def normalize_extension (path ext : String) : String :=
  if pathExt path = ext then path else path ++ ext

/-- `Data.dump(path, protocol)` (data.py lines 48-51): asserts
`protocol == 1`, then writes the archive produced by `write_data_npz` at the
normalized path. Returns the target path and the archive to write. -/
def Data.dump (d : Data) (path : String) (protocol : Int) :
    Except PyErr (String × NpzArchive) :=
  if protocol = 1 then
    .ok (normalize_extension path ".npz", write_data_npz d.kind d.data d.info d.meta)
  else .error .assertionError

/-- `DiskCache` (disk.py): a rudimentary disk cache rooted at `location`. -/
structure DiskCache where
  location : String
deriving DecidableEq, Repr

/-- `DiskCache.filename(key)`: `self.location / (key + ".npz")`. -/
def DiskCache.filename (c : DiskCache) (key : String) : String :=
  c.location ++ "/" ++ (key ++ ".npz")

/-- `DiskCache.check(key)`: `self.filename(key).is_file()`. -/
def DiskCache.check (c : DiskCache) (fs : FS) (key : String) : Bool :=
  (fsFind fs (c.filename key)).isSome

/-- `DiskCache.store(key, data)`: `data.dump(self.filename(key), protocol=1)`
(the `mkdir` of the storage root is implicit in the flat filesystem model). -/
def DiskCache.store (c : DiskCache) (fs : FS) (key : String) (d : Data) :
    Except PyErr FS :=
  match d.dump (c.filename key) 1 with
  | .ok (p, a) => .ok (fsSet fs p (.npz a))
  | .error e => .error e

/-- `DiskCache.retrieve(key)`: `load_data(self.filename(key))`. -/
def DiskCache.retrieve (c : DiskCache) (fs : FS) (key : String) : Except PyErr Data :=
  load_data fs (c.filename key)

deriving instance DecidableEq for Except

/-- The outcome of a `try_retrieve` call: the returned value (or the exception
that escaped), the filesystem afterwards, and the error-level log messages
emitted. -/
structure TRResult where
  result : Except PyErr (Option Data)
  fs : FS
  log : List String
deriving DecidableEq, Repr

/-- The exception classes named by the handler in `DiskCache.try_retrieve`:
`except (EOFError, OSError, UnpicklingError)`.  `FileNotFoundError` is an
`OSError`, so it is caught as well. -/
def caughtByTryRetrieve : PyErr → Bool
  | .eofError => true
  | .fileNotFound => true
  | .unpicklingError => true
  | _ => false

/-- `DiskCache.try_retrieve(key)` (disk.py lines 33-43): attempt `retrieve`;
on one of the caught exceptions, log, delete the file, and return `None`.
The `unlink` call itself can raise (it is outside any handler); in that case
the log line has already been emitted and the filesystem is unchanged. -/
def DiskCache.try_retrieve (c : DiskCache) (fs : FS) (key : String) : TRResult :=
  match c.retrieve fs key with
  | .ok d => ⟨.ok (some d), fs, []⟩
  | .error e =>
    if caughtByTryRetrieve e then
      let msg := "Could not read cache file " ++ c.filename key ++ "; deleting it."
      match fsUnlink fs (c.filename key) with
      | .ok fs2 => ⟨.ok none, fs2, [msg]⟩
      | .error e2 => ⟨.error e2, fs, [msg]⟩
    else ⟨.error e, fs, []⟩

/-- The inputs `compute_hash` receives from `Data.create` (data.py lines
21-25): a freshly drawn random number (`np.random.random()`), the data arrays
(`compute_hash(**data)`), or a list of history strings. -/
inductive HashInput where
  | rand (r : Nat)
  | arrays (d : List (String × List Int))
  | items (l : List String)
deriving DecidableEq, Repr

/-- Modelled from the spec: `compute_hash` (`cmlkit.engine.hashing`, not under
`src/`) is a deterministic, collision-resistant content digest; we model it as
an injective-by-construction encoding of its input. -/
def compute_hash : HashInput → String
  | .rand r => "rand:" ++ toString r
  | .arrays d => "arrays:" ++ toString d
  | .items l => "items:" ++ toString l

/-- `Data.create(data=None, info=None, history=None)` (data.py lines 19-35).
When no history is given, the single history entry is `{kind}@{hash}` where
the hash is taken over the data arrays, or over a freshly drawn random value
when there are no data; the random draw is passed explicitly. -/
def Data.create (kind : String) (data : Option (List (String × List Int)))
    (info : Option (List (String × Int))) (history : Option (List String))
    (randomDraw : Nat) : Data :=
  let history :=
    match history with
    | some h => h
    | none =>
      match data with
      | none => [kind ++ "@" ++ compute_hash (.rand randomDraw)]
      | some d => [kind ++ "@" ++ compute_hash (.arrays d)]
  ⟨kind, data.getD [], info.getD [], history⟩

/-- The value of `component.context.get("cache", "no")` in `Caches.register`:
the key can be absent (so the default `"no"` applies), hold a false-like value
(`None`, `False`, the empty string, ...), or hold a truthy shortcut string. -/
inductive CacheSetting where
  | absent
  | falsy
  | config (s : String)
deriving DecidableEq, Repr

/-- The face a component shows to the cache subsystem (caches.py):
its `kind` string, its `get_hash()` fingerprint, its `str()` description, and
the `cache` entry of its context. -/
structure Component where
  kind : String
  hash : String
  descr : String
  context_cache : CacheSetting
deriving DecidableEq, Repr

/-- Modelled from the spec: `parse_config(config, shortcut_ok=True)`
(`cmlkit.engine`, not under `src/`) parses a shortcut string into the pair of
its kind and an empty inner config. -/
def parse_config (s : String) : String × List (String × String) :=
  (s, [])

/-- What `Caches.register` hands back: a `NoCache` instance, a `DiskCache`,
or Python `None` (the fall-through `else` branch for a falsy configuration). -/
inductive RegisterOutcome where
  | noCache
  | disk (c : DiskCache)
  | pyNone
deriving DecidableEq, Repr

/-- The `Caches` cache manager (caches.py): a base location and the
process-wide bookkeeping list of `(str(component), key, cache)` tuples. -/
structure Caches where
  location : String
  caches : List (String × String × DiskCache)
deriving DecidableEq, Repr

/-- `Caches.register(component)` (caches.py lines 17-39): read the `cache`
context entry (default `"no"`); when truthy, build the key
`{component.kind}/{component.get_hash()}` and dispatch on the parsed cache
kind (`"no"` → `NoCache`, `"disk"` → a registered `DiskCache`, anything else
→ `NotImplementedError`); when falsy, return Python `None`. -/
def Caches.register (r : Caches) (comp : Component) :
    Except PyErr RegisterOutcome × Caches :=
  let cache_config : Option String :=
    match comp.context_cache with
    | .absent => some "no"
    | .falsy => none
    | .config s => some s
  match cache_config with
  | none => (.ok .pyNone, r)
  | some s =>
    if s = "" then (.ok .pyNone, r)
    else
      let key := comp.kind ++ "/" ++ comp.hash
      let cache_kind := (parse_config s).1
      if cache_kind = "no" then (.ok .noCache, r)
      else if cache_kind = "disk" then
        let cache : DiskCache := ⟨r.location ++ "/" ++ key⟩
        (.ok (.disk cache), ⟨r.location, r.caches ++ [(comp.descr, key, cache)]⟩)
      else (.error (.notImplementedError s), r)

/-- Look up an environment variable (first binding wins). -/
def lookupEnv : List (String × String) → String → Option String
  | [], _ => none
  | (k, v) :: t, n => if k = n then some v else lookupEnv t n

/-- Python `int(s)` on a decimal literal with an optional sign; `none` models
the `ValueError` on anything else. -/
def pyDigits : List Char → Option Nat
  | [] => none
  | l =>
    l.foldl
      (fun acc c =>
        match acc with
        | none => none
        | some n => if c.isDigit then some (n * 10 + (c.toNat - 48)) else none)
      (some 0)

/-- Python `int()` applied to an environment value. -/
def pyInt (s : String) : Option Int :=
  match s.data with
  | '-' :: rest => (pyDigits rest).map (fun n => -(n : Int))
  | '+' :: rest => (pyDigits rest).map (fun n => (n : Int))
  | l => (pyDigits l).map (fun n => (n : Int))

/-- `cache_size` (cached_mbtr.py lines 10-13): `int(os.environ['CML_CACHE_SIZE'])`
when the variable is set, `500` otherwise; `none` models the exceptions of a
failed conversion. This value is passed as `max_entries` to the `memcached`
wrapper around the second-stage MBTR computation. -/
def cache_size (env : List (String × String)) : Option Int :=
  match lookupEnv env "CML_CACHE_SIZE" with
  | some s => pyInt s
  | none => some 500

/-- `cache_loc` (cached_mbtr.py lines 17-21): `os.environ['CML_CACHE_LOC']`
when set, else `os.environ['PWD'] + '/cache'`; `none` models the `KeyError`
when neither variable exists. This value is passed as `cache_location` to the
`_diskcached` wrapper around the first-stage MBTR computation. -/
def cache_loc (env : List (String × String)) : Option String :=
  match lookupEnv env "CML_CACHE_LOC" with
  | some s => some s
  | none => (lookupEnv env "PWD").map (fun p => p ++ "/cache")

/-! ## Helper lemmas -/

theorem takeWhile_append_of_all {α : Type} {p : α → Bool} (as bs : List α)
    (h : ∀ a ∈ as, p a = true) :
    (as ++ bs).takeWhile p = as ++ bs.takeWhile p := by
  induction as with
  | nil => rfl
  | cons a t ih =>
    have ha : p a = true := h a (List.mem_cons_self a t)
    simp only [List.cons_append, List.takeWhile_cons_of_pos ha]
    rw [ih (fun x hx => h x (List.mem_cons_of_mem a hx))]

theorem takeWhile_append_stop {α : Type} {p : α → Bool} (as : List α) (b : α)
    (bs : List α) (hb : p b = false) :
    (as ++ b :: bs).takeWhile p = as.takeWhile p := by
  induction as with
  | nil =>
    simp only [List.nil_append, List.takeWhile_nil]
    exact List.takeWhile_cons_of_neg (by simp [hb])
  | cons a t ih =>
    by_cases ha : p a = true
    · simp only [List.cons_append, List.takeWhile_cons_of_pos ha, ih]
    · have ha2 : ¬ p a = true := ha
      simp only [List.cons_append, List.takeWhile_cons_of_neg ha2,
        List.takeWhile_cons_of_neg ha2]

theorem takeWhile_all {α : Type} {p : α → Bool} (l : List α)
    (h : ∀ a ∈ l, p a = true) : l.takeWhile p = l := by
  induction l with
  | nil => rfl
  | cons a t ih =>
    rw [List.takeWhile_cons_of_pos (h a (List.mem_cons_self a t))]
    rw [ih (fun x hx => h x (List.mem_cons_of_mem a hx))]

theorem dropWhile_append_of_all {α : Type} {p : α → Bool} (as bs : List α)
    (h : ∀ a ∈ as, p a = true) :
    (as ++ bs).dropWhile p = bs.dropWhile p := by
  induction as with
  | nil => rfl
  | cons a t ih =>
    have ha : p a = true := h a (List.mem_cons_self a t)
    simp only [List.cons_append, List.dropWhile_cons_of_pos ha]
    exact ih (fun x hx => h x (List.mem_cons_of_mem a hx))

theorem afterLast_append (sep : Char) (xs ys : List Char) (h : sep ∉ ys) :
    afterLast sep (xs ++ ys) = afterLast sep xs ++ ys := by
  unfold afterLast
  rw [List.reverse_append]
  rw [takeWhile_append_of_all _ _ (fun a ha => by
    have : a ∈ ys := List.mem_reverse.mp ha
    simp only [bne_iff_ne, ne_eq]
    intro he; exact h (he ▸ this))]
  rw [List.reverse_append, List.reverse_reverse]

theorem afterLast_last_sep (sep : Char) (xs ys : List Char) :
    afterLast sep (xs ++ sep :: ys) = afterLast sep ys := by
  unfold afterLast
  rw [List.reverse_append, List.reverse_cons, List.append_assoc,
    List.singleton_append]
  rw [takeWhile_append_stop _ sep _ (by simp)]

theorem afterLast_of_not_mem (sep : Char) (l : List Char) (h : sep ∉ l) :
    afterLast sep l = l := by
  unfold afterLast
  rw [takeWhile_all _ (fun a ha => by
    have : a ∈ l := List.mem_reverse.mp ha
    simp only [bne_iff_ne, ne_eq]
    intro he; exact h (he ▸ this))]
  exact List.reverse_reverse l

theorem strMk_data (s : String) : String.mk s.data = s := by
  cases s
  rfl

theorem filename_data (c : DiskCache) (key : String) :
    (c.filename key).data = c.location.data ++ '/' :: (key.data ++ ['.', 'n', 'p', 'z']) := by
  show (c.location ++ "/" ++ (key ++ ".npz")).data = _
  rw [String.data_append, String.data_append, String.data_append]
  rw [List.append_assoc]
  rfl

theorem pathExt_filename (c : DiskCache) (key : String)
    (h : afterLast '/' key.data ≠ []) :
    pathExt (c.filename key) = ".npz" := by
  have h1 : (pathName (c.filename key)).data
      = afterLast '/' key.data ++ '.' :: ['n', 'p', 'z'] := by
    show afterLast '/' (c.filename key).data = _
    rw [filename_data, afterLast_last_sep]
    rw [afterLast_append '/' _ _ (by decide)]
  have h2 : afterLast '.' (afterLast '/' key.data ++ ['.', 'n', 'p', 'z'])
      = ['n', 'p', 'z'] := by
    rw [afterLast_last_sep]
    exact afterLast_of_not_mem _ _ (by decide)
  have hpos : 0 < (afterLast '/' key.data).length := List.length_pos.mpr h
  simp only [pathExt, h1, h2]
  rw [if_pos ⟨by decide, by
    simp only [List.length_append, List.length_cons, List.length_nil]
    omega⟩]

theorem fsFind_fsSet_self (fs : FS) (p : String) (c : FileContent) :
    fsFind (fsSet fs p c) p = some c := by
  simp [fsSet, fsFind]

theorem fsFind_filter_self (fs : FS) (p : String) :
    fsFind (fs.filter (fun e => e.1 != p)) p = none := by
  induction fs with
  | nil => rfl
  | cons e t ih =>
    by_cases he : e.1 = p
    · simp [List.filter, he, ih]
    · simp only [List.filter]
      rw [show (e.1 != p) = true by simp [he]]
      simp only [fsFind]
      rw [if_neg he]
      exact ih

theorem dictInsert_fresh (acc : List (String × List Int)) (n : String)
    (v : List Int) (h : n ∉ acc.map Prod.fst) :
    dictInsert acc n v = acc ++ [(n, v)] := by
  induction acc with
  | nil => rfl
  | cons e t ih =>
    have hne : e.1 ≠ n := by
      intro he
      exact h (by simp [he])
    obtain ⟨k0, v0⟩ := e
    simp only [dictInsert]
    rw [if_neg hne]
    rw [ih (fun hm => h (List.mem_cons_of_mem _ hm))]
    rfl

theorem firstComp_mangled (n : String) :
    firstComp ("data/" ++ n).data = "data".data := by
  have hd : ("data/" ++ n).data = ['d', 'a', 't', 'a'] ++ '/' :: n.data := by
    rw [String.data_append]; rfl
  unfold firstComp
  rw [hd, takeWhile_append_stop _ '/' _ (by simp)]
  exact takeWhile_all _ (by decide)

theorem secondComp_mangled (n : String) (h : ('/' : Char) ∉ n.data) :
    secondComp ("data/" ++ n).data = some n.data := by
  have hd : ("data/" ++ n).data = ['d', 'a', 't', 'a'] ++ '/' :: n.data := by
    rw [String.data_append]; rfl
  unfold secondComp
  rw [hd, dropWhile_append_of_all _ _ (by decide)]
  rw [List.dropWhile_cons_of_neg (by simp)]
  show some (List.takeWhile (fun c => c != '/') n.data) = some n.data
  rw [takeWhile_all _ (fun a ha => by
    simp only [bne_iff_ne, ne_eq]
    intro he; exact h (he ▸ ha))]

theorem parse_foldl_aux (data0 : List (String × List Int)) :
    ∀ acc : List (String × List Int),
    (∀ e ∈ data0, ('/' : Char) ∉ e.1.data) →
    (data0.map Prod.fst).Nodup →
    (∀ e ∈ data0, e.1 ∉ acc.map Prod.fst) →
    List.foldl
      (fun acc e =>
        if firstComp e.1.data = "data".data then
          match secondComp e.1.data with
          | some m => dictInsert acc ⟨m⟩ e.2
          | none => acc
        else acc)
      acc (data0.map (fun e => ("data/" ++ e.1, e.2))) = acc ++ data0 := by
  induction data0 with
  | nil => intro acc _ _ _; simp
  | cons e rest ih =>
    intro acc hslash hnodup hdisj
    obtain ⟨n, v⟩ := e
    simp only [List.map_cons, List.foldl_cons]
    rw [show (if firstComp (("data/" ++ n, v).1.data) = "data".data then
        match secondComp (("data/" ++ n, v).1.data) with
        | some m => dictInsert acc ⟨m⟩ (("data/" ++ n, v).2)
        | none => acc
      else acc) = acc ++ [(n, v)] by
      rw [if_pos (firstComp_mangled n)]
      rw [secondComp_mangled n (hslash (n, v) (List.mem_cons_self _ _))]
      show dictInsert acc ⟨n.data⟩ v = acc ++ [(n, v)]
      rw [strMk_data]
      exact dictInsert_fresh acc n v (hdisj (n, v) (List.mem_cons_self _ _))]
    rw [ih (acc ++ [(n, v)])
      (fun x hx => hslash x (List.mem_cons_of_mem _ hx))
      (by
        simp only [List.map_cons, List.nodup_cons] at hnodup
        exact hnodup.2)
      (fun x hx => by
        simp only [List.map_append, List.map_cons, List.map_nil,
          List.mem_append, List.mem_singleton]
        rintro (hm | hm)
        · exact hdisj x (List.mem_cons_of_mem _ hx) hm
        · simp only [List.map_cons, List.nodup_cons] at hnodup
          exact hnodup.1 (hm ▸ List.mem_map_of_mem Prod.fst hx))]
    rw [List.append_assoc]
    rfl

theorem parse_entries_roundtrip (data0 : List (String × List Int))
    (hslash : ∀ e ∈ data0, ('/' : Char) ∉ e.1.data)
    (hnodup : (data0.map Prod.fst).Nodup) :
    parse_data_entries (data0.map (fun e => ("data/" ++ e.1, e.2))) = data0 := by
  unfold parse_data_entries
  rw [parse_foldl_aux data0 [] hslash hnodup (fun e _ => by simp)]
  rfl

theorem load_data_npz_ne_valueError (fs : FS) (p : String) :
    load_data_npz fs p ≠ .error .valueError := by
  unfold load_data_npz
  cases fsFind fs p with
  | none => simp
  | some c =>
    cases c with
    | garbage => simp
    | npz a =>
      by_cases hp : a.protocol = 1
      · simp [hp]
      · simp [hp]

theorem strData_inj {s t : String} (h : s.data = t.data) : s = t := by
  cases s with
  | mk ls =>
    cases t with
    | mk lt =>
      exact congrArg String.mk h

theorem strAppend_left_cancel {a b c : String} (h : a ++ b = a ++ c) : b = c := by
  have h2 := congrArg String.data h
  rw [String.data_append, String.data_append] at h2
  exact strData_inj (List.append_cancel_left h2)

/-! ## Claims -/

/-- Claim C1: for every (well-formed) key whose artifact file on disk is
corrupt — i.e. its content is garbage on which deserialization fails —
`DiskCache.try_retrieve(key)` does not raise: it returns `None`, deletes the
offending file, logs the event, and a subsequent `check(key)` returns false.
The key is well formed in the sense of the spec's `CacheKey` data model
(`{kind}/{hash}`): its final path component is nonempty, so that the
artifact filename carries the `.npz` suffix. -/
theorem try_retrieve_corrupt_self_heal (c : DiskCache) (fs : FS) (key : String)
    (hkey : afterLast '/' key.data ≠ [])
    (hfile : fsFind fs (c.filename key) = some .garbage) :
    (DiskCache.try_retrieve c fs key).result = .ok none ∧
    fsFind (DiskCache.try_retrieve c fs key).fs (c.filename key) = none ∧
    DiskCache.check c (DiskCache.try_retrieve c fs key).fs key = false ∧
    (DiskCache.try_retrieve c fs key).log =
      ["Could not read cache file " ++ c.filename key ++ "; deleting it."] := by
  have hret : DiskCache.retrieve c fs key = .error .unpicklingError := by
    unfold DiskCache.retrieve load_data
    rw [if_pos (pathExt_filename c key hkey)]
    unfold load_data_npz
    rw [hfile]
  have htr : DiskCache.try_retrieve c fs key =
      ⟨.ok none, fs.filter (fun e => e.1 != c.filename key),
        ["Could not read cache file " ++ c.filename key ++ "; deleting it."]⟩ := by
    simp only [DiskCache.try_retrieve, hret, caughtByTryRetrieve, if_true,
      fsUnlink, hfile]
  rw [htr]
  refine ⟨rfl, fsFind_filter_self fs _, ?_, rfl⟩
  unfold DiskCache.check
  rw [fsFind_filter_self]
  rfl

theorem try_retrieve_corrupt_self_heal_w :
    (DiskCache.try_retrieve ⟨"loc"⟩ [("loc/k.npz", .garbage)] "k").result = .ok none ∧
    fsFind (DiskCache.try_retrieve ⟨"loc"⟩ [("loc/k.npz", .garbage)] "k").fs
      (DiskCache.filename ⟨"loc"⟩ "k") = none ∧
    DiskCache.check ⟨"loc"⟩
      (DiskCache.try_retrieve ⟨"loc"⟩ [("loc/k.npz", .garbage)] "k").fs "k" = false ∧
    (DiskCache.try_retrieve ⟨"loc"⟩ [("loc/k.npz", .garbage)] "k").log =
      ["Could not read cache file " ++ DiskCache.filename ⟨"loc"⟩ "k" ++ "; deleting it."] :=
  try_retrieve_corrupt_self_heal ⟨"loc"⟩ [("loc/k.npz", .garbage)] "k"
    (by decide) (by decide)

/-- Claim C2 (amended): `store(key, artifact)` followed by `retrieve(key)`
yields an artifact equal (in particular in `data`, `info` and `meta.history`)
to the original, provided the key's final path component is nonempty (as for
all registry-built `{kind}/{hash}` keys) and the artifact's data field names
are pairwise distinct (they are keys of a Python `dict`) and contain no `/`.
The slash restriction is forced: the reader recovers a field name as
`name.split("/")[1]`, which truncates a stored name `data/a/b` to `a`
(see the counterexample). -/
theorem store_retrieve_roundtrip (c : DiskCache) (fs : FS) (key : String) (d : Data)
    (hkey : afterLast '/' key.data ≠ [])
    (hslash : ∀ e ∈ d.data, ('/' : Char) ∉ e.1.data)
    (hnodup : (d.data.map Prod.fst).Nodup) :
    (DiskCache.store c fs key d).map (fun fs2 => DiskCache.retrieve c fs2 key) =
      .ok (.ok d) := by
  have hext := pathExt_filename c key hkey
  have hstore : DiskCache.store c fs key d = .ok (fsSet fs (c.filename key)
      (.npz (write_data_npz d.kind d.data d.info d.meta))) := by
    unfold DiskCache.store Data.dump normalize_extension
    rw [if_pos rfl, if_pos hext]
  rw [hstore]
  show Except.ok (DiskCache.retrieve c (fsSet fs (c.filename key)
      (.npz (write_data_npz d.kind d.data d.info d.meta))) key) = Except.ok (.ok d)
  congr 1
  unfold DiskCache.retrieve load_data
  rw [if_pos hext]
  unfold load_data_npz
  rw [fsFind_fsSet_self]
  show (if (write_data_npz d.kind d.data d.info d.meta).protocol = 1 then _ else _) = _
  rw [if_pos (show (write_data_npz d.kind d.data d.info d.meta).protocol = 1 from rfl)]
  unfold write_data_npz from_config
  rw [show (⟨1, d.kind, d.info, d.meta,
      d.data.map (fun e => ("data/" ++ e.1, e.2))⟩ : NpzArchive).entries
    = d.data.map (fun e => ("data/" ++ e.1, e.2)) from rfl]
  rw [parse_entries_roundtrip d.data hslash hnodup]

theorem store_retrieve_roundtrip_w :
    (DiskCache.store ⟨"loc"⟩ [] "k"
        ⟨"data", [("x", [1, 2, 3])], [("i", 7)], ["h"]⟩).map
      (fun fs2 => DiskCache.retrieve ⟨"loc"⟩ fs2 "k") =
      .ok (.ok ⟨"data", [("x", [1, 2, 3])], [("i", 7)], ["h"]⟩) :=
  store_retrieve_roundtrip ⟨"loc"⟩ [] "k"
    ⟨"data", [("x", [1, 2, 3])], [("i", 7)], ["h"]⟩
    (by decide) (by decide) (by decide)

/-- Claim C2, counterexample to the claim as stated ("for every key and every
artifact"): an artifact with the data field name `a/b` round-trips to an
artifact with data field name `a` — the stored member `data/a/b` is split on
`/` and only the component after `data` is kept — so the retrieved data
mapping differs from the original. -/
theorem store_retrieve_slash_field_ce :
    (DiskCache.store ⟨"loc"⟩ [] "k" ⟨"data", [("a/b", [1])], [], ["h"]⟩).map
        (fun fs2 => DiskCache.retrieve ⟨"loc"⟩ fs2 "k") =
      .ok (.ok ⟨"data", [("a", [1])], [], ["h"]⟩) ∧
    Data.mk "data" [("a", [1])] [] ["h"] ≠ ⟨"data", [("a/b", [1])], [], ["h"]⟩ := by
  decide

/-- Claim C3: for a component whose context holds the disk-cache
configuration, `register` builds the key `{kind}/{get_hash()}`, returns a
`DiskCache` rooted at `{registry.location}/{key}`, and appends exactly one
bookkeeping tuple `(str(component), key, cache)` to the registry list. -/
theorem register_disk_cache (r : Caches) (comp : Component)
    (h : comp.context_cache = .config "disk") :
    Caches.register r comp =
      (.ok (.disk ⟨r.location ++ "/" ++ (comp.kind ++ "/" ++ comp.hash)⟩),
       ⟨r.location, r.caches ++ [(comp.descr, comp.kind ++ "/" ++ comp.hash,
         ⟨r.location ++ "/" ++ (comp.kind ++ "/" ++ comp.hash)⟩)]⟩) := by
  unfold Caches.register
  rw [h]
  rfl

theorem register_disk_cache_w :
    Caches.register ⟨"/tmp/cache", []⟩ ⟨"feature", "abc123", "comp", .config "disk"⟩ =
      (.ok (.disk ⟨"/tmp/cache" ++ "/" ++ ("feature" ++ "/" ++ "abc123")⟩),
       ⟨"/tmp/cache", [] ++ [("comp", "feature" ++ "/" ++ "abc123",
         ⟨"/tmp/cache" ++ "/" ++ ("feature" ++ "/" ++ "abc123")⟩)]⟩) :=
  register_disk_cache ⟨"/tmp/cache", []⟩ ⟨"feature", "abc123", "comp", .config "disk"⟩ rfl

/-- Claim C4: for a (well-formed) key with no artifact on disk, `check`
returns false and `retrieve` fails with the distinct not-found signal
(`FileNotFoundError` from `np.load`), as the claim says; but `try_retrieve`
does NOT return `None`: the handler catches the `FileNotFoundError` (an
`OSError`) and then calls `Path.unlink()` on the missing file, which itself
raises `FileNotFoundError`. This theorem evaluates the code at the failing
input. -/
theorem try_retrieve_missing_key_raises (c : DiskCache) (fs : FS) (key : String)
    (hkey : afterLast '/' key.data ≠ [])
    (hmiss : fsFind fs (c.filename key) = none) :
    DiskCache.check c fs key = false ∧
    DiskCache.retrieve c fs key = .error .fileNotFound ∧
    (DiskCache.try_retrieve c fs key).result = .error .fileNotFound ∧
    (DiskCache.try_retrieve c fs key).fs = fs := by
  have hret : DiskCache.retrieve c fs key = .error .fileNotFound := by
    unfold DiskCache.retrieve load_data
    rw [if_pos (pathExt_filename c key hkey)]
    unfold load_data_npz
    rw [hmiss]
  have htr : DiskCache.try_retrieve c fs key = ⟨.error .fileNotFound, fs,
      ["Could not read cache file " ++ c.filename key ++ "; deleting it."]⟩ := by
    simp only [DiskCache.try_retrieve, hret, caughtByTryRetrieve, if_true,
      fsUnlink, hmiss]
  refine ⟨?_, hret, ?_, ?_⟩
  · unfold DiskCache.check
    rw [hmiss]
    rfl
  · rw [htr]
  · rw [htr]

theorem try_retrieve_missing_key_raises_w :
    DiskCache.check ⟨"loc"⟩ [] "k" = false ∧
    DiskCache.retrieve ⟨"loc"⟩ [] "k" = .error .fileNotFound ∧
    (DiskCache.try_retrieve ⟨"loc"⟩ [] "k").result = .error .fileNotFound ∧
    (DiskCache.try_retrieve ⟨"loc"⟩ [] "k").fs = [] :=
  try_retrieve_missing_key_raises ⟨"loc"⟩ [] "k" (by decide) (by decide)

/-- Claim C5 (amended): when the `cache` context key is absent, the default
`"no"` applies and `register` returns a `NoCache` instance with no registry
bookkeeping; but when the key is present with a disabled/falsy value,
`register` returns Python `None` (the implicit fall-through of the
`if cache_config:` guard), not a `NoCache` instance — still with no
bookkeeping. -/
theorem register_disabled_behavior (r : Caches) (comp : Component) :
    (comp.context_cache = .absent → Caches.register r comp = (.ok .noCache, r)) ∧
    (comp.context_cache = .falsy → Caches.register r comp = (.ok .pyNone, r)) := by
  constructor
  · intro h
    unfold Caches.register
    rw [h]
    rfl
  · intro h
    unfold Caches.register
    rw [h]

theorem register_disabled_behavior_w :
    Caches.register ⟨"root", []⟩ ⟨"feature", "abc", "comp", .absent⟩ =
      (.ok .noCache, ⟨"root", []⟩) ∧
    Caches.register ⟨"root", []⟩ ⟨"feature", "abc", "comp", .falsy⟩ =
      (.ok .pyNone, ⟨"root", []⟩) :=
  ⟨(register_disabled_behavior ⟨"root", []⟩ ⟨"feature", "abc", "comp", .absent⟩).1 rfl,
   (register_disabled_behavior ⟨"root", []⟩ ⟨"feature", "abc", "comp", .falsy⟩).2 rfl⟩

/-- Claim C5, counterexample to the claim as stated: for a component whose
`cache` context value is present but falsy, `register` returns Python `None`
— not a `NoCache` instance (the registry list is indeed left untouched). -/
theorem register_falsy_ce :
    Caches.register ⟨"root", []⟩ ⟨"feature", "abc", "comp", .falsy⟩ =
      (.ok .pyNone, ⟨"root", []⟩) ∧
    RegisterOutcome.pyNone ≠ .noCache := by
  decide

/-- Claim C6: for a component whose context carries a (truthy) cache kind
string other than `"disk"` and `"no"`, `register` fails immediately with
`NotImplementedError` and appends nothing to the registry list. -/
theorem register_unknown_kind_error (r : Caches) (comp : Component) (s : String)
    (h : comp.context_cache = .config s) (h0 : s ≠ "") (h1 : s ≠ "no")
    (h2 : s ≠ "disk") :
    Caches.register r comp = (.error (.notImplementedError s), r) := by
  unfold Caches.register
  rw [h]
  show (if s = "" then _ else _) = _
  rw [if_neg h0]
  simp only [parse_config]
  rw [if_neg h1, if_neg h2]

theorem register_unknown_kind_error_w :
    Caches.register ⟨"root", []⟩ ⟨"feature", "abc", "comp", .config "redis"⟩ =
      (.error (.notImplementedError "redis"), ⟨"root", []⟩) :=
  register_unknown_kind_error ⟨"root", []⟩ ⟨"feature", "abc", "comp", .config "redis"⟩
    "redis" rfl (by decide) (by decide) (by decide)

/-- Claim C7: for a stored artifact file whose `protocol` member differs
from 1, `retrieve` (deserialization via `load_data`) fails with the
assertion-style failure instead of returning a misinterpreted artifact. -/
theorem retrieve_protocol_guard (c : DiskCache) (fs : FS) (key : String)
    (a : NpzArchive) (hkey : afterLast '/' key.data ≠ [])
    (hfile : fsFind fs (c.filename key) = some (.npz a))
    (hp : a.protocol ≠ 1) :
    DiskCache.retrieve c fs key = .error .assertionError := by
  unfold DiskCache.retrieve load_data
  rw [if_pos (pathExt_filename c key hkey)]
  unfold load_data_npz
  rw [hfile]
  show (if a.protocol = 1 then _ else _) = _
  rw [if_neg hp]

theorem retrieve_protocol_guard_w :
    DiskCache.retrieve ⟨"loc"⟩ [("loc/k.npz", .npz ⟨2, "data", [], [], []⟩)] "k" =
      .error .assertionError :=
  retrieve_protocol_guard ⟨"loc"⟩ [("loc/k.npz", .npz ⟨2, "data", [], [], []⟩)] "k"
    ⟨2, "data", [], [], []⟩ (by decide) (by decide) (by decide)

/-- Claim C8: a `Data` instance created with no input data and no explicit
history gets its identity — the single history entry `{kind}@{hash}` — from
the hash of the freshly drawn random value, not from any content; so two such
creations whose random draws hash differently (as distinct draws do, the
digest being collision-resistant) produce different identities, making the
identity non-deterministic across runs. -/
theorem create_no_data_random_identity (kind : String) (r1 r2 : Nat)
    (h : compute_hash (.rand r1) ≠ compute_hash (.rand r2)) :
    (Data.create kind none none none r1).meta
      = [kind ++ "@" ++ compute_hash (.rand r1)] ∧
    (Data.create kind none none none r1).meta
      ≠ (Data.create kind none none none r2).meta := by
  refine ⟨rfl, ?_⟩
  intro he
  apply h
  simp only [Data.create, List.cons.injEq, and_true] at he
  exact strAppend_left_cancel he

theorem create_no_data_random_identity_w :
    (Data.create "data" none none none 0).meta
      = ["data" ++ "@" ++ compute_hash (.rand 0)] ∧
    (Data.create "data" none none none 0).meta
      ≠ (Data.create "data" none none none 1).meta :=
  create_no_data_random_identity "data" 0 1 (by decide)

/-- Claim C9: the in-memory capacity handed to the memoized second-stage MBTR
computation is the `CML_CACHE_SIZE` override when that variable is set (and
parses as an int) and 500 otherwise, and the disk cache root handed to the
disk-cached first stage is the `CML_CACHE_LOC` override when set and
`$PWD + "/cache"` otherwise. -/
theorem cached_mbtr_env_config (env1 env2 : List (String × String))
    (s t p : String) (n : Int)
    (h1 : lookupEnv env1 "CML_CACHE_SIZE" = some s) (h2 : pyInt s = some n)
    (h3 : lookupEnv env1 "CML_CACHE_LOC" = some t)
    (h4 : lookupEnv env2 "CML_CACHE_SIZE" = none)
    (h5 : lookupEnv env2 "CML_CACHE_LOC" = none)
    (h6 : lookupEnv env2 "PWD" = some p) :
    cache_size env1 = some n ∧ cache_loc env1 = some t ∧
    cache_size env2 = some 500 ∧ cache_loc env2 = some (p ++ "/cache") := by
  refine ⟨?_, ?_, ?_, ?_⟩
  · unfold cache_size
    rw [h1]
    exact h2
  · unfold cache_loc
    rw [h3]
  · unfold cache_size
    rw [h4]
  · unfold cache_loc
    rw [h5, h6]
    rfl

theorem cached_mbtr_env_config_w :
    cache_size [("CML_CACHE_SIZE", "800"), ("CML_CACHE_LOC", "/scratch")] = some 800 ∧
    cache_loc [("CML_CACHE_SIZE", "800"), ("CML_CACHE_LOC", "/scratch")] = some "/scratch" ∧
    cache_size [("PWD", "/work")] = some 500 ∧
    cache_loc [("PWD", "/work")] = some ("/work" ++ "/cache") :=
  cached_mbtr_env_config
    [("CML_CACHE_SIZE", "800"), ("CML_CACHE_LOC", "/scratch")] [("PWD", "/work")]
    "800" "/scratch" "/work" 800 (by decide) (by decide) (by decide)
    (by decide) (by decide) (by decide)

/-- Claim C10: `load_data(path)` on any path whose suffix is not `".npz"`
raises `ValueError` without reading the file (the result does not depend on
the filesystem contents); and since `DiskCache.filename` appends `".npz"` to
the key, this branch is unreachable through `DiskCache.retrieve` for every
key whose final path component is nonempty (as all registry-built
`{kind}/{hash}` keys are). -/
theorem load_data_ext_guard (fs : FS) (p : String) (c : DiskCache) (key : String)
    (hp : pathExt p ≠ ".npz") (hkey : afterLast '/' key.data ≠ []) :
    load_data fs p = .error .valueError ∧
    DiskCache.retrieve c fs key ≠ .error .valueError := by
  constructor
  · unfold load_data
    rw [if_neg hp]
  · unfold DiskCache.retrieve load_data
    rw [if_pos (pathExt_filename c key hkey)]
    exact load_data_npz_ne_valueError fs _

theorem load_data_ext_guard_w :
    load_data [] "dir/file.txt" = .error .valueError ∧
    DiskCache.retrieve ⟨"loc"⟩ [] "k" ≠ .error .valueError :=
  load_data_ext_guard [] "dir/file.txt" ⟨"loc"⟩ "k" (by decide) (by decide)
